import Mathlib

/-!
Verification development for the hyprpacker package build orchestrator
(manifest model, content hasher, source resolver/fetcher, build cache and
scheduler, garbage collector).  Rust sources are shallowly embedded as
executable Lean definitions; machine integers become `Nat` with explicit
truncation where the code casts, fallible operations become `Except`/`Option`,
and the filesystem, the network and the external build executor become
explicit state values or oracle parameters.
-/

namespace Hyprpacker

/-! ## Content hasher (`src/hash.rs`) -/

/-- Model of Rust `str::to_uppercase` restricted to the ASCII range (digest
strings are ASCII hex, where the two functions agree). -/
def strUpper (s : String) : String := ⟨s.data.map Char.toUpper⟩

/-- Model of `char::is_ascii_hexdigit`. -/
def isAsciiHexDigit (c : Char) : Bool :=
  c.isDigit || ('a' ≤ c && c ≤ 'f') || ('A' ≤ c && c ≤ 'F')

/-- `Sha256Hash` newtype over its textual form (`src/hash.rs`). -/
structure Sha256Hash where
  val : String
  deriving Repr, DecidableEq

/-- `impl PartialEq for Sha256Hash`: case-insensitive comparison via
`to_uppercase` of both sides. -/
def Sha256Hash.eqb (a b : Sha256Hash) : Bool :=
  strUpper a.val == strUpper b.val

/-- `Sha256Hash::from_str`: accepts exactly 64 ASCII hex digits and stores the
uppercased form. -/
def Sha256Hash.fromStr (s : String) : Except String Sha256Hash :=
  if s.length = 64 && s.data.all isAsciiHexDigit then
    .ok ⟨strUpper s⟩
  else
    .error ("Invalid SHA256 hash: " ++ s)

/-- `default_hash`: the string of 64 `'A'` characters. -/
def defaultHash : Sha256Hash := ⟨⟨List.replicate 64 'A'⟩⟩

/-! ## Manifest model (`src/manifest.rs`) -/

/-- `DockerSettings` (sandbox settings). -/
inductive DockerSettings where
  | dockerfilePath (path : String)
  | imageName (name : String)
  deriving Repr, DecidableEq

/-- `impl Default for DockerSettings`. -/
def DockerSettings.default : DockerSettings :=
  .imageName "archlinux:multilib-devel"

/-- `Source` variants: prebuilt binary archive, local PKGBUILD tree, remote
PKGBUILD fetched from git as a tarball snapshot. -/
inductive Source where
  | binary (url : String) (sha256 : Sha256Hash)
  | pkgBuildLocal (path : String) (pickPackagesFromGroup : Option (List String))
  | pkgBuildGit (repoUrl : String) (rev : String) (sha256 : Sha256Hash)
      (pickPackagesFromGroup : Option (List String))
  deriving Repr, DecidableEq

/-- `Package` from the manifest. -/
structure Package where
  name : String
  version : String
  author : Option String
  source : Source
  docker : DockerSettings
  build_deps : List String
  deriving Repr, DecidableEq

/-- `Manifest` (kernel/initrd configuration is irrelevant to the claims and
kept as its raw textual fields). -/
structure Manifest where
  version : String
  kernelUrl : String
  initrdBuildScript : String
  packages : List Package
  deriving Repr, DecidableEq

/-- `InvalidSourceError` (`src/manifest.rs`). -/
inductive InvalidSourceError where
  | unsupportedSourceType
  | invalidGitSourceUrl
  deriving Repr, DecidableEq

/-! ## Source resolver (`src/sources.rs`) -/

/-- `SourceType`: a resolved fetchable location. -/
inductive SourceType where
  | tarball (url : String) (sha256 : Sha256Hash)
  | localFolder (path : String)
  deriving Repr, DecidableEq

/-- Model of Rust `str::contains` (substring containment, also used with the
single-character pattern `'/'`). -/
def containsSub (s pat : String) : Bool :=
  s.data.tails.any (fun t => pat.data.isPrefixOf t)

/-- The loop of `str::trim_end_matches(".git")`: repeatedly drop a trailing
`".git"` while present.  Structural fuel keeps the kernel able to evaluate
it; `fuel = l.length` always suffices because every iteration removes four
characters from a list of length at least four. -/
def trimDotGitAux : Nat → List Char → List Char
  | 0, l => l
  | fuel + 1, l =>
    if (".git".data.isSuffixOf l) = true then
      trimDotGitAux fuel (l.take (l.length - 4))
    else
      l

/-- Model of `repo_url.trim_end_matches(".git")`. -/
def trimDotGit (s : String) : String := ⟨trimDotGitAux s.data.length s.data⟩

/-- Model of Rust `str::split('/')`. -/
def splitSlash : List Char → List (List Char)
  | [] => [[]]
  | c :: rest =>
    if c = '/' then [] :: splitSlash rest
    else
      match splitSlash rest with
      | [] => [[c]]
      | h :: t => (c :: h) :: t

/-- `Package::source_type` (`src/sources.rs`): resolve a `Source` into a
fetchable location; synthesizes tarball-snapshot URLs for git sources. -/
def Source.sourceType (s : Source) : Except InvalidSourceError SourceType :=
  match s with
  | .binary url sha256 => .ok (.tarball url sha256)
  | .pkgBuildLocal path _ => .ok (.localFolder path)
  | .pkgBuildGit repoUrl rev sha256 _ =>
    if containsSub repoUrl "github.com" then
      let repo := trimDotGit repoUrl
      .ok (.tarball (repo ++ "/archive/" ++ rev ++ ".tar.gz") sha256)
    else if containsSub repoUrl "gitlab.com" || containsSub repoUrl "/" then
      let repo := trimDotGit repoUrl
      match (splitSlash repo.data).getLast? with
      | none => .error .invalidGitSourceUrl
      | some repoName =>
        .ok (.tarball
          (repo ++ "/-/archive/" ++ rev ++ "/" ++ ⟨repoName⟩ ++ "-" ++ rev ++ ".tar.gz")
          sha256)
    else .error .invalidGitSourceUrl

def Package.sourceType (p : Package) : Except InvalidSourceError SourceType :=
  p.source.sourceType

/-- `Package::sources_path`. -/
def sourcesPath : String := "build/sources"

/-- `Package::prepared_sources_dir`. -/
def preparedSourcesDir : String := sourcesPath ++ "/prepared"

/-- Render a `u64` in lowercase hex, as `format!("{:x}", hash)` does. -/
def hexStr (n : Nat) : String := ⟨Nat.toDigits 16 n⟩

/-- `Package::source_tarball_path`, parameterised by the `DefaultHasher`
64-bit hash of the `Source` value (`hSrc`). -/
def Source.tarballPath (hSrc : Source → Nat) (s : Source) :
    Except InvalidSourceError String :=
  match s.sourceType with
  | .error e => .error e
  | .ok (.tarball _ _) => .ok (sourcesPath ++ "/" ++ hexStr (hSrc s) ++ ".tar.gz")
  | .ok (.localFolder _) => .error .unsupportedSourceType

def Package.sourceTarballPath (hSrc : Source → Nat) (p : Package) :
    Except InvalidSourceError String :=
  p.source.tarballPath hSrc

/-- `Package::get_package_prepared_dir`. -/
def Package.getPackagePreparedDir (p : Package) : String :=
  preparedSourcesDir ++ "/" ++ p.name ++ "-" ++ p.version

/-! ## Build cache paths (`src/commands/image/packages/build.rs`) -/

/-- The `{name}-{version}-{hash}` component of `Package::get_out_dir`, where
`hOut` is the `DefaultHasher` 64-bit hash obtained from hashing the source and
then the docker settings (rendered in decimal by `format!("{}")`). -/
def Package.outDirName (hOut : Source → DockerSettings → Nat) (p : Package) : String :=
  p.name ++ "-" ++ p.version ++ "-" ++ toString (hOut p.source p.docker)

/-- `Package::get_out_dir`: `["build", "out", "{name}-{version}-{hash}"]`. -/
def Package.getOutDir (hOut : Source → DockerSettings → Nat) (p : Package) : String :=
  "build/out/" ++ p.outDirName hOut

/-- `Package::get_out_unpacked_dir`. -/
def Package.getOutUnpackedDir (hOut : Source → DockerSettings → Nat) (p : Package) : String :=
  p.getOutDir hOut ++ "/unpacked"

/-- The marker file written on a fully successful build
(`build_dir.join("last_successful_build_time")`). -/
def Package.markerPath (hOut : Source → DockerSettings → Nat) (p : Package) : String :=
  p.getOutDir hOut ++ "/last_successful_build_time"

/-! ## Filesystem model for staleness (`src/fs_utils.rs`) -/

/-! A directory tree carrying file modification times (milliseconds since
the Unix epoch, as `Nat`).  `FsEntries` is the entry list of a directory (an
inlined list, so that recursion over the tree is structural). -/
mutual
inductive FsTree where
  | file (mtime : Nat)
  | dir (entries : FsEntries)
inductive FsEntries where
  | nil
  | cons (name : String) (tree : FsTree) (rest : FsEntries)
end

/-- Recursive walk of `has_file_newer_than` over the entries of a directory:
true iff some file in the tree has `modified > timestamp` (strict). -/
def walkNewer (ts : Nat) : FsEntries → Bool
  | .nil => false
  | .cons _ (.file m) rest => decide (ts < m) || walkNewer ts rest
  | .cons _ (.dir es) rest => walkNewer ts es || walkNewer ts rest

/-- `has_file_newer_than(dir, timestamp)`: a missing path yields `Ok(false)`;
a path that exists but is a plain file makes `read_dir` fail with an I/O
error; a directory is walked recursively. -/
def hasFileNewerThan (node : Option FsTree) (ts : Nat) : Except Unit Bool :=
  match node with
  | none => .ok false
  | some (.file _) => .error ()
  | some (.dir es) => .ok (walkNewer ts es)

/-- Contents of a marker file on disk: present but unreadable, or a readable
string. -/
inductive MarkerFile where
  | unreadable
  | readable (content : String)
  deriving Repr, DecidableEq

/-- Disk state seen by the staleness check and the build step: directory
trees by path (for the mtime walk), marker files by path, and fetched tarball
contents by path (abstract bytes as `Nat`). -/
structure StaleFS where
  trees : List (String × FsTree)
  markers : List (String × MarkerFile)
  tarballs : List (String × Nat)

def lookupAssoc {α : Type} (l : List (String × α)) (k : String) : Option α :=
  (l.find? (fun e => e.1 == k)).map (·.2)

/-- Accumulate decimal digits; any non-digit character fails. -/
def parseDigitsAux (acc : Nat) : List Char → Option Nat
  | [] => some acc
  | c :: rest =>
    if c.isDigit then parseDigitsAux (acc * 10 + (c.toNat - 48)) rest
    else none

/-- Rust `str::parse::<u128>`: optional leading `'+'`, then one or more ASCII
digits, value below `2^128`. -/
def parseU128 (s : String) : Option Nat :=
  let t : List Char := if s.data.head? = some '+' then s.data.tail else s.data
  match t with
  | [] => none
  | l =>
    match parseDigitsAux 0 l with
    | none => none
    | some v => if v < 2 ^ 128 then some v else none

/-! ## Staleness (`Package::needs_rebuild`), Fueled because the Rust function
recurses through `build_deps` with no cycle detection. -/

/-- Short-circuiting `Iterator::any` over dependency staleness results
(`none` propagates a recursion that did not finish within the fuel). -/
def anyStaleAux (f : Package → Option Bool) : List Package → Option Bool
  | [] => some false
  | q :: rest =>
    match f q with
    | none => none
    | some true => some true
    | some false => anyStaleAux f rest

/-- The dependency packages of `p` in manifest order:
`manifest.packages.iter().filter(|q| p.build_deps.contains(&q.name))`. -/
def depsOf (m : Manifest) (p : Package) : List Package :=
  m.packages.filter (fun q => p.build_deps.contains q.name)

/-- `Package::needs_rebuild`, with explicit fuel bounding the recursion depth
through `build_deps`.  `some b` means the Rust function returns `b`; `none`
means the recursion did not finish within the fuel. -/
def needsRebuildF (hSrc : Source → Nat) (hOut : Source → DockerSettings → Nat)
    (m : Manifest) (fs : StaleFS) : Nat → Package → Option Bool
  | 0, _ => none
  | fuel + 1, p =>
    match anyStaleAux (needsRebuildF hSrc hOut m fs fuel) (depsOf m p) with
    | none => none
    | some true => some true
    | some false =>
      match lookupAssoc fs.markers (p.markerPath hOut) with
      | none => some true
      | some .unreadable => some true
      | some (.readable s) =>
        match parseU128 s with
        | none => some true
        | some v =>
          let ts := v % 2 ^ 64
          let sourcePath :=
            match p.source with
            | .pkgBuildLocal path _ => path
            | _ =>
              match p.sourceTarballPath hSrc with
              | .ok tp => tp
              | .error _ => p.getPackagePreparedDir
          some (match hasFileNewerThan (lookupAssoc fs.trees sourcePath) ts with
                | .ok b => b
                | .error _ => true)

/-- The Rust `needs_rebuild` recursion never returns on this input, at any
recursion depth. -/
def needsRebuildDiverges (hSrc : Source → Nat) (hOut : Source → DockerSettings → Nat)
    (m : Manifest) (fs : StaleFS) (p : Package) : Prop :=
  ∀ fuel, needsRebuildF hSrc hOut m fs fuel p = none

/-- Sequential accumulation of dependency artifact paths
(`flat_map` over the filtered dependency list). -/
def depsPathsAux (f : Package → Option (List String))
    (listing : Package → List String) : List Package → Option (List String)
  | [] => some []
  | q :: rest => do
    let sub ← f q
    let tail ← depsPathsAux f listing rest
    pure (listing q ++ sub ++ tail)

/-- `Package::get_deps_paths`, with fuel; `listing` abstracts
`get_built_archlinux_pkgs_paths` (a directory listing of already built
dependency archives, whose `Err` case is flattened to nothing). -/
def getDepsPathsF (m : Manifest) (listing : Package → List String) :
    Nat → Package → Option (List String)
  | 0, _ => none
  | fuel + 1, p => depsPathsAux (getDepsPathsF m listing fuel) listing (depsOf m p)

/-- The Rust `get_deps_paths` recursion never returns on this input, at any
recursion depth. -/
def getDepsPathsDiverges (m : Manifest) (listing : Package → List String)
    (p : Package) : Prop :=
  ∀ fuel, getDepsPathsF m listing fuel p = none

/-! ### The specification's wording of staleness, for comparison with
`needsRebuildF`.  These definitions follow the specification text, not the
code: condition (d) checks modification times under the package's *effective
source root, the prepared or local tree*. -/

/-- The effective source root as the specification words it: the local path
for a local tree, otherwise the prepared `name-version` directory. -/
def specSourceRoot (p : Package) : String :=
  match p.source with
  | .pkgBuildLocal path _ => path
  | _ => p.getPackagePreparedDir

/-- Whether some file under the root has a modification time strictly newer
than the recorded timestamp (a missing root has no files). -/
def specNewerThan (fs : StaleFS) (root : String) (ts : Nat) : Bool :=
  match lookupAssoc fs.trees root with
  | none => false
  | some (.file m) => decide (ts < m)
  | some (.dir es) => walkNewer ts es

/-- Staleness as the specification words it: stale iff (a) some transitive
dependency is stale, or (b) no completion marker exists, or (c) the marker is
unreadable or unparseable, or (d) some file under the effective source root
is strictly newer than the marker timestamp. -/
def specNeedsRebuildF (hOut : Source → DockerSettings → Nat)
    (m : Manifest) (fs : StaleFS) : Nat → Package → Option Bool
  | 0, _ => none
  | fuel + 1, p =>
    match anyStaleAux (specNeedsRebuildF hOut m fs fuel) (depsOf m p) with
    | none => none
    | some true => some true
    | some false =>
      match lookupAssoc fs.markers (p.markerPath hOut) with
      | none => some true
      | some .unreadable => some true
      | some (.readable s) =>
        match parseU128 s with
        | none => some true
        | some v => some (specNewerThan fs (specSourceRoot p) (v % 2 ^ 64))

/-! ## Fetching (`Package::fetch_sources`, `src/commands/image/packages/fetch.rs`)

The tarball cache is a map from path to abstract file bytes (`Nat`); `sha`
abstracts `hash_file` (the SHA-256 digest of those bytes, an uppercase hex
rendering in the code); `net` abstracts `ureq::get(url).call()` (`none` is a
network failure). -/

/-- The on-disk tarball cache, path to abstract content. -/
abbrev FetchFS : Type := List (String × Nat)

/-- `SourceFetchError`. -/
inductive SourceFetchError where
  | io
  | fetchError
  | hashMismatch (expected actual : Sha256Hash)
  | invalidSource (e : InvalidSourceError)
  deriving Repr, DecidableEq

/-- `Result::is_ok`. -/
def isOkE {ε α : Type} : Except ε α → Bool
  | .ok _ => true
  | .error _ => false

/-- `Result::is_err`. -/
def isErrE {ε α : Type} (r : Except ε α) : Bool := !isOkE r

/-- `Package::assert_source_tarball_matches_hash`, as a function of the
package's `Source` (the Rust method reads only `self.source`). -/
def Source.assertTarballMatchesHash (hSrc : Source → Nat) (sha : Nat → Sha256Hash)
    (fs : FetchFS) (s : Source) : Except SourceFetchError Unit :=
  match s.tarballPath hSrc with
  | .error e => .error (.invalidSource e)
  | .ok path =>
    match s.sourceType with
    | .error e => .error (.invalidSource e)
    | .ok (.tarball _ sha256) =>
      match lookupAssoc fs path with
      | none => .error .io
      | some content =>
        let hash := sha content
        if (hash.eqb sha256) = false then
          .error (.hashMismatch sha256 hash)
        else
          .ok ()
    | .ok (.localFolder _) =>
      .error (.invalidSource .unsupportedSourceType)

def Package.assertTarballMatchesHash (hSrc : Source → Nat) (sha : Nat → Sha256Hash)
    (fs : FetchFS) (p : Package) : Except SourceFetchError Unit :=
  p.source.assertTarballMatchesHash hSrc sha fs

/-- Insert or overwrite a path in the tarball cache
(`File::create` truncates an existing file). -/
def insertAssoc (fs : FetchFS) (k : String) (v : Nat) : FetchFS :=
  (k, v) :: fs.filter (fun e => e.1 != k)

/-- `Package::fetch_sources`: returns the per-package result, the updated
cache, and the number of network requests performed. -/
def Package.fetchSources (hSrc : Source → Nat) (sha : Nat → Sha256Hash)
    (net : String → Option Nat) (fs : FetchFS) (p : Package) :
    Except SourceFetchError Unit × FetchFS × Nat :=
  match p.sourceType with
  | .error e => (.error (.invalidSource e), fs, 0)
  | .ok (.localFolder _) => (.ok (), fs, 0)
  | .ok (.tarball url _) =>
    match p.sourceTarballPath hSrc with
    | .error e => (.error (.invalidSource e), fs, 0)
    | .ok path =>
      let needsDownload := isErrE (p.assertTarballMatchesHash hSrc sha fs)
      if needsDownload then
        match net url with
        | none => (.error .fetchError, fs, 1)
        | some content =>
          let fs' := insertAssoc fs path content
          match p.assertTarballMatchesHash hSrc sha fs' with
          | .error e => (.error e, fs', 1)
          | .ok _ => (.ok (), fs', 1)
      else
        match p.assertTarballMatchesHash hSrc sha fs with
        | .error e => (.error e, fs, 0)
        | .ok _ => (.ok (), fs, 0)

/-- Run `fetch_sources` for each selected package (the worker pool's
aggregate effect, evaluated in dispatch order): per-package results, final
cache state, total network requests. -/
def runFetchSeq (hSrc : Source → Nat) (sha : Nat → Sha256Hash)
    (net : String → Option Nat) (fs : FetchFS) :
    List Package → List (String × Except SourceFetchError Unit) × FetchFS × Nat
  | [] => ([], fs, 0)
  | p :: rest =>
    let step := p.fetchSources hSrc sha net fs
    let tail := runFetchSeq hSrc sha net step.2.1 rest
    ((p.name, step.1) :: tail.1, tail.2.1, step.2.2 + tail.2.2)

/-- The selection filter of `fetch`: drop `LocalFolder` sources, keep
packages whose cached tarball is missing or mismatched. -/
def fetchSelection (hSrc : Source → Nat) (sha : Nat → Sha256Hash)
    (fs : FetchFS) (m : Manifest) : List Package :=
  (m.packages.filter (fun p =>
      match p.sourceType with
      | .ok (.localFolder _) => false
      | _ => true)).filter
    (fun p => isErrE (p.assertTarballMatchesHash hSrc sha fs))

/-- Aggregate result of one fetch pass. -/
structure FetchPass where
  selectedNames : List String
  downloadedPackages : Nat
  errors : Nat
  totalPackages : Nat
  requests : Nat
  fs : FetchFS

/-- The `fetch` stage (`src/commands/image/packages/fetch.rs`): select, run
fetch-then-report for each selected package, aggregate counts. -/
def fetchStage (hSrc : Source → Nat) (sha : Nat → Sha256Hash)
    (net : String → Option Nat) (m : Manifest) (fs : FetchFS) : FetchPass :=
  let selected := fetchSelection hSrc sha fs m
  let run := runFetchSeq hSrc sha net fs selected
  { selectedNames := selected.map Package.name
    downloadedPackages := (run.1.filter (fun r => isOkE r.2)).length
    errors := (run.1.filter (fun r => isErrE r.2)).length
    totalPackages := m.packages.length
    requests := run.2.2
    fs := run.2.1 }

/-! ## Build execution (`Package::build` and the `build` stage) -/

/-- `BuildError`. -/
inductive BuildError where
  | io
  | non0ExitCode (code : Int)
  | invalidSource (e : InvalidSourceError)
  | unpackBinaryError
  | dockerError
  | noPackageFound
  deriving Repr, DecidableEq

/-- `Package::build`, at the granularity the claims need: a `Binary` source
requires its cached archive and unpacks it (writing no marker); a
`PkgBuildGit`/`PkgBuildLocal` source runs the sandboxed executor (abstracted
by `exec`), fails on a non-zero exit or an empty artifact listing
(`artifacts` abstracts `get_built_archlinux_pkgs_paths`), and on full success
writes the completion marker with the current time `now` as its last step. -/
def Package.buildStep (hSrc : Source → Nat) (hOut : Source → DockerSettings → Nat)
    (exec : Package → Bool) (artifacts : Package → List String) (now : Nat)
    (fs : StaleFS) (p : Package) : Except BuildError StaleFS :=
  match p.source with
  | .binary _ _ =>
    match p.sourceTarballPath hSrc with
    | .error e => .error (.invalidSource e)
    | .ok path =>
      match lookupAssoc fs.tarballs path with
      | none => .error .unpackBinaryError
      | some _ => .ok fs
  | _ =>
    if exec p = false then
      .error (.non0ExitCode (-1))
    else if (artifacts p).isEmpty then
      .error .noPackageFound
    else
      .ok { fs with
            markers := (p.markerPath hOut, .readable (toString now)) ::
              fs.markers.filter (fun e => e.1 != p.markerPath hOut) }

/-- Aggregate result of the build stage (`BuildResult` has exactly these
three counters). -/
structure BuildResultModel where
  totalPackages : Nat
  builtPackages : Nat
  errors : Nat
  deriving Repr, DecidableEq

/-- The packages selected for building, in manifest order
(`packages.iter().filter(|p| p.needs_rebuild(manifest))`); `none` when some
staleness evaluation does not finish within the fuel. -/
def buildSelection (hSrc : Source → Nat) (hOut : Source → DockerSettings → Nat)
    (m : Manifest) (fs : StaleFS) (fuel : Nat) : Option (List Package) :=
  if m.packages.all (fun p => (needsRebuildF hSrc hOut m fs fuel p).isSome) then
    some (m.packages.filter (fun p => needsRebuildF hSrc hOut m fs fuel p == some true))
  else
    none

/-- Sequential execution of the build loop over the selected packages:
attempted names in order, plus success/error counts.  `outcome` abstracts the
full per-package `Package::build` result. -/
def runBuildSeq (outcome : Package → Bool) :
    List Package → List String × Nat × Nat
  | [] => ([], 0, 0)
  | p :: rest =>
    let tail := runBuildSeq outcome rest
    (p.name :: tail.1,
     (if outcome p then 1 else 0) + tail.2.1,
     (if outcome p then 0 else 1) + tail.2.2)

/-- The `build` stage: filter once by staleness, then attempt every selected
package in manifest order, counting successes and failures. -/
def buildStage (hSrc : Source → Nat) (hOut : Source → DockerSettings → Nat)
    (m : Manifest) (fs : StaleFS) (fuel : Nat) (outcome : Package → Bool) :
    Option (List String × BuildResultModel) :=
  match buildSelection hSrc hOut m fs fuel with
  | none => none
  | some selected =>
    let run := runBuildSeq outcome selected
    some (run.1,
      { totalPackages := m.packages.length
        builtPackages := run.2.1
        errors := run.2.2 })

/-! ## Garbage collector (`src/gc.rs`, `Manifest::garbage_collect_sources`) -/

/-- A directory entry as seen by `read_dir`: file name, directory flag, and
size (`metadata.len()` for source entries, `calculate_folder_size` for output
folders). -/
structure GcEntry where
  name : String
  isDir : Bool
  size : Nat
  deriving Repr, DecidableEq

/-- The cache directories the collector sweeps. -/
structure GCState where
  sourcesDirExists : Bool
  sources : List GcEntry
  preparedDirExists : Bool
  prepared : List GcEntry
  out : List GcEntry
  deriving Repr, DecidableEq

/-- `GarbageCollectionStat`. -/
structure GCStat where
  freedBytes : Nat
  removedOutFolders : Nat
  removedPreparedPackages : Nat
  removedSourcesPackages : Nat
  deriving Repr, DecidableEq

/-- Observable events of one collector run, in program order: computing a
reference set from the manifest, or deleting a cache entry. -/
inductive GCEvent where
  | computeSourceRefs
  | computePreparedRefs
  | computeOutRefs
  | deleteSource (name : String)
  | deletePrepared (name : String)
  | deleteOut (name : String)
  deriving Repr, DecidableEq

/-- The referenced fetched-source tarball paths of a manifest
(`pkg.source_tarball_path()` for each package, errors skipped). -/
def sourceRefs (hSrc : Source → Nat) (m : Manifest) : List String :=
  m.packages.filterMap (fun p =>
    match p.sourceTarballPath hSrc with
    | .ok path => some path
    | .error _ => none)

/-- The referenced prepared directories (`{prepared_dir}/{name}-{version}`
for each package). -/
def preparedRefs (m : Manifest) : List String :=
  m.packages.map (fun p => preparedSourcesDir ++ "/" ++ p.name ++ "-" ++ p.version)

/-- The referenced build-output folder names (`get_out_dir().file_name()`
for each package). -/
def outRefs (hOut : Source → DockerSettings → Nat) (m : Manifest) : List String :=
  m.packages.map (Package.outDirName hOut)

/-- Keep predicate for entries of the sources directory: the `prepared`
subdirectory is skipped, every other entry survives iff its full path is
referenced. -/
def keepSourceEntry (hSrc : Source → Nat) (m : Manifest) (e : GcEntry) : Bool :=
  (e.name == "prepared" && e.isDir) ||
    (sourceRefs hSrc m).contains (sourcesPath ++ "/" ++ e.name)

/-- Keep predicate for entries of the prepared directory. -/
def keepPreparedEntry (m : Manifest) (e : GcEntry) : Bool :=
  (preparedRefs m).contains (preparedSourcesDir ++ "/" ++ e.name)

/-- Keep predicate for entries of `build/out` (compared by folder name). -/
def keepOutEntry (hOut : Source → DockerSettings → Nat) (m : Manifest) (e : GcEntry) : Bool :=
  (outRefs hOut m).contains e.name

/-- `Manifest::garbage_collect_sources`: resulting state, statistics, and the
ordered event trace.  Deletions are modelled as succeeding (the code logs and
skips failures). -/
def garbageCollectSources (hSrc : Source → Nat) (hOut : Source → DockerSettings → Nat)
    (m : Manifest) (st : GCState) : GCState × GCStat × List GCEvent :=
  if st.sourcesDirExists = false then
    (st, ⟨0, 0, 0, 0⟩, [])
  else
    let deletedSources := st.sources.filter (fun e => !keepSourceEntry hSrc m e)
    let deletedPrepared :=
      if st.preparedDirExists then
        st.prepared.filter (fun e => !keepPreparedEntry m e)
      else []
    let deletedOut := st.out.filter (fun e => !keepOutEntry hOut m e)
    let st' : GCState :=
      { st with
        sources := st.sources.filter (keepSourceEntry hSrc m)
        prepared :=
          if st.preparedDirExists then st.prepared.filter (keepPreparedEntry m)
          else st.prepared
        out := st.out.filter (keepOutEntry hOut m) }
    let stat : GCStat :=
      { freedBytes := (deletedSources.map GcEntry.size).sum +
          (deletedPrepared.map GcEntry.size).sum + (deletedOut.map GcEntry.size).sum
        removedOutFolders := deletedOut.length
        removedPreparedPackages := deletedPrepared.length
        removedSourcesPackages := deletedSources.length }
    let trace : List GCEvent :=
      [GCEvent.computeSourceRefs, GCEvent.computePreparedRefs] ++
        deletedSources.map (fun e => GCEvent.deleteSource e.name) ++
        deletedPrepared.map (fun e => GCEvent.deletePrepared e.name) ++
        [GCEvent.computeOutRefs] ++
        deletedOut.map (fun e => GCEvent.deleteOut e.name)
    (st', stat, trace)

/-- Event classifier: a reference-set computation. -/
def isComputeEvent : GCEvent → Bool := fun e =>
  match e with
  | .computeSourceRefs | .computePreparedRefs | .computeOutRefs => true
  | _ => false

/-- Event classifier: any deletion. -/
def isDeleteEvent : GCEvent → Bool := fun e =>
  match e with
  | .deleteSource _ | .deletePrepared _ | .deleteOut _ => true
  | _ => false

/-- Event classifier: an output-folder deletion. -/
def isDeleteOutEvent : GCEvent → Bool := fun e =>
  match e with
  | .deleteOut _ => true
  | _ => false

/-- The claim's ordering property over a collector trace: every
reference-set computation precedes every deletion. -/
def refsComputedBeforeAllDeletes (tr : List GCEvent) : Bool :=
  (tr.dropWhile isComputeEvent).all (fun e => !isComputeEvent e)

/-- Per-category ordering actually realised by the code: no output-folder
deletion before the output reference set is computed, and no deletion at all
before the source and prepared reference sets are computed. -/
def perCategoryOrderOk (tr : List GCEvent) : Bool :=
  ((tr.takeWhile (fun e => e != GCEvent.computeOutRefs)).all
      (fun e => !isDeleteOutEvent e)) &&
    ((tr.takeWhile (fun e =>
        e != GCEvent.computeSourceRefs && e != GCEvent.computePreparedRefs)).all
      (fun e => !isDeleteEvent e))

/-! ## Helper lemmas -/

theorem charToNatOfNat (n : Nat) (h : n.isValidChar) : (Char.ofNat n).toNat = n := by
  simp [Char.ofNat, h, Char.ofNatAux, Char.toNat, UInt32.toNat]

theorem toLower_toUpper (c : Char) : c.toLower.toUpper = c.toUpper := by
  simp only [Char.toLower, Char.toUpper]
  by_cases h : c.toNat ≥ 65 ∧ c.toNat ≤ 90
  · rw [if_pos h]
    have hv : (c.toNat + 32).isValidChar := by
      left
      show c.toNat + 32 < 55296
      omega
    have ht : (Char.ofNat (c.toNat + 32)).toNat = c.toNat + 32 := charToNatOfNat _ hv
    rw [ht]
    rw [if_pos (by omega), if_neg (by omega)]
    have he : c.toNat + 32 - 32 = c.toNat := by omega
    rw [he, Char.ofNat_toNat]
  · rw [if_neg h]

theorem forall₂_toLower_map_toUpper {l₁ l₂ : List Char}
    (h : List.Forall₂ (fun c d => c.toLower = d.toLower) l₁ l₂) :
    l₁.map Char.toUpper = l₂.map Char.toUpper := by
  induction h with
  | nil => rfl
  | @cons a b tl₁ tl₂ hcd htail ih =>
    simp only [List.map_cons, ih, List.cons.injEq, and_true]
    calc a.toUpper = a.toLower.toUpper := (toLower_toUpper a).symm
      _ = b.toLower.toUpper := by rw [hcd]
      _ = b.toUpper := toLower_toUpper b

instance {ε α : Type} [DecidableEq ε] [DecidableEq α] :
    DecidableEq (Except ε α) := fun x y =>
  match x, y with
  | .ok a, .ok b =>
    match decEq a b with
    | isTrue h => isTrue (by rw [h])
    | isFalse h => isFalse (fun hc => h (by cases hc; rfl))
  | .error a, .error b =>
    match decEq a b with
    | isTrue h => isTrue (by rw [h])
    | isFalse h => isFalse (fun hc => h (by cases hc; rfl))
  | .ok _, .error _ => isFalse (fun hc => Except.noConfusion hc)
  | .error _, .ok _ => isFalse (fun hc => Except.noConfusion hc)

theorem sourceType_git_eq (repoUrl rev : String) (sha : Sha256Hash)
    (pick : Option (List String)) :
    (Source.pkgBuildGit repoUrl rev sha pick).sourceType =
      (if containsSub repoUrl "github.com" = true then
        .ok (.tarball (trimDotGit repoUrl ++ "/archive/" ++ rev ++ ".tar.gz") sha)
      else if (containsSub repoUrl "gitlab.com" || containsSub repoUrl "/") = true then
        match (splitSlash (trimDotGit repoUrl).data).getLast? with
        | none => .error .invalidGitSourceUrl
        | some repoName =>
          .ok (.tarball (trimDotGit repoUrl ++ "/-/archive/" ++ rev ++ "/" ++
            ⟨repoName⟩ ++ "-" ++ rev ++ ".tar.gz") sha)
      else .error .invalidGitSourceUrl) := rfl

theorem string_append_cancel_right {a b t : String} (h : a ++ t = b ++ t) : a = b := by
  rw [String.ext_iff] at h ⊢
  simp only [String.data_append] at h
  exact List.append_cancel_right h

theorem string_append_cancel_left {t a b : String} (h : t ++ a = t ++ b) : a = b := by
  rw [String.ext_iff] at h ⊢
  simp only [String.data_append] at h
  exact List.append_cancel_left h

theorem splitSlash_ne_nil (l : List Char) : splitSlash l ≠ [] := by
  induction l with
  | nil => simp [splitSlash]
  | cons c rest ih =>
    simp only [splitSlash]
    by_cases h : c = '/'
    · simp [h]
    · rw [if_neg h]
      cases hs : splitSlash rest with
      | nil => simp
      | cons a t => simp

/-! ## Claim theorems -/

/-- C9: digest equality is case-insensitive on the textual form — two digests
whose strings agree characterwise up to letter case (`to_lowercase`-equal)
compare equal — and parsing (`Sha256Hash::from_str`) canonicalizes the stored
text to a single (upper) case. -/
theorem digest_case_insensitive_canonical :
    (∀ (s : String) (hsh : Sha256Hash),
        Sha256Hash.fromStr s = .ok hsh → hsh.val = strUpper s) ∧
    (∀ a b : Sha256Hash,
        List.Forall₂ (fun c d => c.toLower = d.toLower) a.val.data b.val.data →
        a.eqb b = true) := by
  constructor
  · intro s hsh h
    unfold Sha256Hash.fromStr at h
    by_cases hc : (s.length = 64 && s.data.all isAsciiHexDigit) = true
    · rw [if_pos hc] at h
      cases h
      rfl
    · rw [if_neg hc] at h
      cases h
  · intro a b hab
    have hmap : a.val.data.map Char.toUpper = b.val.data.map Char.toUpper :=
      forall₂_toLower_map_toUpper hab
    show (strUpper a.val == strUpper b.val) = true
    have : strUpper a.val = strUpper b.val := by
      unfold strUpper
      rw [hmap]
    rw [this]
    exact beq_self_eq_true _

/-- C9 witness: a lower-case digest string and its upper-case variant compare
equal, and parsing stores the upper-cased text. -/
theorem digest_case_insensitive_canonical_witness :
    Sha256Hash.eqb ⟨"ab12cd"⟩ ⟨"AB12CD"⟩ = true ∧
    (⟨⟨List.replicate 64 'F'⟩⟩ : Sha256Hash).val = strUpper ⟨List.replicate 64 'f'⟩ := by
  constructor
  · exact digest_case_insensitive_canonical.2 ⟨"ab12cd"⟩ ⟨"AB12CD"⟩ (by
      simp only [List.forall₂_cons]
      refine ⟨by decide, by decide, by decide, by decide, by decide, by decide, List.Forall₂.nil⟩)
  · exact digest_case_insensitive_canonical.1 ⟨List.replicate 64 'f'⟩ _ (by rfl)

/-- C7 counterexample: a git `repo_url` on an unrecognized host
(`bitbucket.org`) does not produce an `InvalidSource` error — because the URL
contains a slash it is given the GitLab-style tarball URL. -/
theorem unknown_host_gets_gitlab_url :
    (Source.pkgBuildGit "https://bitbucket.org/foo/bar" "v1" defaultHash none).sourceType =
      .ok (.tarball "https://bitbucket.org/foo/bar/-/archive/v1/bar-v1.tar.gz" defaultHash) := by
  decide

/-- C7 (amended): the resolver uses the GitHub `archive` tarball convention
when `repo_url` contains `github.com`, and the GitLab dash-archive tarball
convention when it contains `gitlab.com` or any slash at all; `InvalidSource`
is returned exactly for git URLs containing neither `github.com`,
`gitlab.com` nor a slash. -/
theorem source_type_url_synthesis (repoUrl rev : String) (sha : Sha256Hash)
    (pick : Option (List String)) :
    (containsSub repoUrl "github.com" = true →
      (Source.pkgBuildGit repoUrl rev sha pick).sourceType =
        .ok (.tarball (trimDotGit repoUrl ++ "/archive/" ++ rev ++ ".tar.gz") sha)) ∧
    (containsSub repoUrl "github.com" = false →
      (containsSub repoUrl "gitlab.com" || containsSub repoUrl "/") = true →
      ∃ repoName : List Char,
        (splitSlash (trimDotGit repoUrl).data).getLast? = some repoName ∧
        (Source.pkgBuildGit repoUrl rev sha pick).sourceType =
          .ok (.tarball (trimDotGit repoUrl ++ "/-/archive/" ++ rev ++ "/" ++
            ⟨repoName⟩ ++ "-" ++ rev ++ ".tar.gz") sha)) ∧
    (∀ e, (Source.pkgBuildGit repoUrl rev sha pick).sourceType = .error e ↔
      (e = .invalidGitSourceUrl ∧ containsSub repoUrl "github.com" = false ∧
        containsSub repoUrl "gitlab.com" = false ∧ containsSub repoUrl "/" = false)) := by
  refine ⟨?_, ?_, ?_⟩
  · intro hgh
    rw [sourceType_git_eq, if_pos hgh]
  · intro hgh hgl
    rw [sourceType_git_eq, if_neg (by simp [hgh]), if_pos hgl]
    cases hlast : (splitSlash (trimDotGit repoUrl).data).getLast? with
    | none =>
      exact absurd (List.getLast?_eq_none_iff.mp hlast)
        (splitSlash_ne_nil (trimDotGit repoUrl).data)
    | some repoName =>
      exact ⟨repoName, rfl, rfl⟩
  · intro e
    rw [sourceType_git_eq]
    constructor
    · intro h
      by_cases hgh : containsSub repoUrl "github.com" = true
      · rw [if_pos hgh] at h
        cases h
      · rw [if_neg hgh] at h
        by_cases hgl : (containsSub repoUrl "gitlab.com" || containsSub repoUrl "/") = true
        · rw [if_pos hgl] at h
          cases hlast : (splitSlash (trimDotGit repoUrl).data).getLast? with
          | none =>
            exact absurd (List.getLast?_eq_none_iff.mp hlast)
              (splitSlash_ne_nil (trimDotGit repoUrl).data)
          | some repoName =>
            rw [hlast] at h
            cases h
        · rw [if_neg hgl] at h
          cases h
          simp only [Bool.or_eq_true, not_or, Bool.not_eq_true] at hgh hgl
          exact ⟨rfl, by simpa using hgh, hgl.1, hgl.2⟩
    · rintro ⟨he, hgh, hgl, hsl⟩
      subst he
      rw [if_neg (by simp [hgh]), if_neg (by simp [hgl, hsl])]

/-- C7 witness: the three branches realised on concrete URLs — a GitHub
host, a plain GitLab host, and a slash-free unrecognized reference. -/
theorem source_type_url_synthesis_witness :
    (Source.pkgBuildGit "https://github.com/o/r.git" "v2" defaultHash none).sourceType =
      .ok (.tarball "https://github.com/o/r/archive/v2.tar.gz" defaultHash) ∧
    (Source.pkgBuildGit "noslashhost" "v3" defaultHash none).sourceType =
      .error .invalidGitSourceUrl := by
  constructor
  · exact (source_type_url_synthesis "https://github.com/o/r.git" "v2" defaultHash none).1
      (by decide)
  · exact ((source_type_url_synthesis "noslashhost" "v3" defaultHash none).2.2
      .invalidGitSourceUrl).mpr ⟨rfl, by decide, by decide, by decide⟩

/-- C6 counterexample: the packages `a-1` and `b-1` have identical
`(source, sandbox)` yet resolve to different physical output directories,
because the directory name carries the `name-version` prefix — refuting the
claimed name-independent sharing of one directory. -/
theorem out_dir_differs_for_different_names :
    let src := Source.binary "https://example.com/p.tar.zst" defaultHash
    let pa : Package := ⟨"a", "1", none, src, DockerSettings.default, []⟩
    let pb : Package := ⟨"b", "1", none, src, DockerSettings.default, []⟩
    pa.source = pb.source ∧ pa.docker = pb.docker ∧
      pa.getOutDir (fun _ _ => 0) ≠ pb.getOutDir (fun _ _ => 0) := by
  refine ⟨rfl, rfl, ?_⟩
  decide

/-- C6 (amended): packages with identical `(source, sandbox)` share the same
derived hash component, but the physical output directory also carries the
`name-version` prefix: the directories coincide exactly when the rendered
`name-version` prefix strings coincide.  The rendering is dash-ambiguous, so
coincidence does not require equal names — `a-b`/`c` and `a`/`b-c` both
render `a-b-c` and share one directory. -/
theorem out_dir_shared_iff_prefix_eq (hOut : Source → DockerSettings → Nat)
    (p q : Package) (hs : p.source = q.source) (hd : p.docker = q.docker) :
    hOut p.source p.docker = hOut q.source q.docker ∧
    (p.getOutDir hOut = q.getOutDir hOut ↔
      p.name ++ "-" ++ p.version = q.name ++ "-" ++ q.version) := by
  have hh : hOut p.source p.docker = hOut q.source q.docker := by rw [hs, hd]
  refine ⟨hh, ?_⟩
  unfold Package.getOutDir Package.outDirName
  rw [hh]
  constructor
  · intro h
    have h1 := string_append_cancel_left h
    have h2 := string_append_cancel_right h1
    exact string_append_cancel_right h2
  · intro h
    rw [h]

/-- C6 witness: with identical `(source, sandbox)`, the different names
`a-b` and `a` with versions `c` and `b-c` render the same `a-b-c` prefix and
therefore share one physical output directory. -/
theorem out_dir_shared_iff_prefix_eq_witness :
    let src := Source.binary "https://example.com/p.tar.zst" defaultHash
    let pa : Package := ⟨"a-b", "c", none, src, DockerSettings.default, []⟩
    let pq : Package := ⟨"a", "b-c", none, src, DockerSettings.default, []⟩
    pa.getOutDir (fun _ _ => 7) = pq.getOutDir (fun _ _ => 7) := by
  intro src pa pq
  exact (out_dir_shared_iff_prefix_eq (fun _ _ => 7) pa pq rfl rfl).2.mpr (by decide)

/-! ### Concrete fixtures used by individual claims -/

/-- Trivial stand-in for the 64-bit source hasher. -/
def hZeroSrc : Source → Nat := fun _ => 0

/-- Trivial stand-in for the 64-bit (source, docker) hasher. -/
def hZeroOut : Source → DockerSettings → Nat := fun _ _ => 0

/-- A git-sourced package used to exercise the staleness check. -/
def c1GitPkg : Package :=
  { name := "g", version := "1", author := none
    source := .pkgBuildGit "https://github.com/o/r" "v" defaultHash none
    docker := DockerSettings.default, build_deps := [] }

def c1Manifest : Manifest := ⟨"1", "", "", [c1GitPkg]⟩

/-- Disk state after a fetch and a successful build: the cached tarball
exists (a plain file, mtime 5), the prepared tree exists with an old file
(mtime 10), and the completion marker records timestamp 999999 — nothing is
newer than the marker. -/
def c1FS : StaleFS :=
  { trees := [("build/sources/0.tar.gz", .file 5),
              (c1GitPkg.getPackagePreparedDir,
                .dir (.cons "PKGBUILD" (.file 10) .nil))]
    markers := [(c1GitPkg.markerPath hZeroOut, .readable "999999")]
    tarballs := [("build/sources/0.tar.gz", 42)] }

/-- C1: `needs_rebuild` diverges from the specified staleness predicate.  For
a git package whose cached tarball exists, the code hands the tarball *file*
to `has_file_newer_than`, whose `read_dir` fails, and `unwrap_or(true)` marks
the package stale — even though the marker is present, parseable, and newer
than every file under the prepared tree, so the specified predicate says
fresh. -/
theorem needs_rebuild_walks_tarball_file :
    needsRebuildF hZeroSrc hZeroOut c1Manifest c1FS 1 c1GitPkg = some true ∧
    specNeedsRebuildF hZeroOut c1Manifest c1FS 1 c1GitPkg = some false := by
  constructor
  · decide
  · decide

/-- A package that names itself in `build_deps`. -/
def cyclicPkg : Package :=
  { name := "cyclic", version := "1", author := none
    source := .pkgBuildLocal "pkgs/cyclic" none
    docker := DockerSettings.default, build_deps := ["cyclic"] }

def cyclicManifest : Manifest := ⟨"1", "", "", [cyclicPkg]⟩

theorem cyclic_needsRebuild_aux (hSrc : Source → Nat)
    (hOut : Source → DockerSettings → Nat) (fs : StaleFS) :
    ∀ fuel, needsRebuildF hSrc hOut cyclicManifest fs fuel cyclicPkg = none := by
  intro fuel
  induction fuel with
  | zero => rfl
  | succ n ih =>
    have hd : depsOf cyclicManifest cyclicPkg = [cyclicPkg] := rfl
    simp only [needsRebuildF, hd, anyStaleAux, ih]

theorem cyclic_getDepsPaths_aux (listing : Package → List String) :
    ∀ fuel, getDepsPathsF cyclicManifest listing fuel cyclicPkg = none := by
  intro fuel
  induction fuel with
  | zero => rfl
  | succ n ih =>
    have hd : depsOf cyclicManifest cyclicPkg = [cyclicPkg] := rfl
    simp only [getDepsPathsF, hd, depsPathsAux, ih, Option.bind_none]
    rfl

/-- C5 counterexample: on a manifest whose `build_deps` relation has a cycle
(a package depending on itself), staleness evaluation does not detect or
report anything — it never returns at any recursion depth, refuting the
claimed detection and termination. -/
theorem cyclic_deps_not_detected :
    needsRebuildDiverges hZeroSrc hZeroOut cyclicManifest ⟨[], [], []⟩ cyclicPkg :=
  fun fuel => cyclic_needsRebuild_aux hZeroSrc hZeroOut ⟨[], [], []⟩ fuel

/-- C5 (amended): neither staleness evaluation nor dependency resolution
performs cycle detection; on a cyclic `build_deps` graph both recurse
unboundedly (no configuration error is reported, no result is ever produced)
— whatever the hashers, the disk state or the artifact listing. -/
theorem cyclic_deps_unbounded_recursion (hSrc : Source → Nat)
    (hOut : Source → DockerSettings → Nat) (fs : StaleFS)
    (listing : Package → List String) :
    needsRebuildDiverges hSrc hOut cyclicManifest fs cyclicPkg ∧
    getDepsPathsDiverges cyclicManifest listing cyclicPkg :=
  ⟨fun fuel => cyclic_needsRebuild_aux hSrc hOut fs fuel,
   fun fuel => cyclic_getDepsPaths_aux listing fuel⟩

/-- C10: for a `Binary`-sourced package, a successful `build()` leaves the
marker map untouched (the completion marker is written only in the
PKGBUILD branch), and whenever the marker is absent any completed staleness
evaluation yields `true` — so a Binary package is re-selected on every run. -/
theorem binary_build_writes_no_marker (hSrc : Source → Nat)
    (hOut : Source → DockerSettings → Nat) (exec : Package → Bool)
    (artifacts : Package → List String) (now : Nat) (m : Manifest)
    (fs fs' : StaleFS) (p : Package) (url : String) (sha256 : Sha256Hash)
    (fuel : Nat) (b : Bool)
    (hbin : p.source = .binary url sha256)
    (hbuild : p.buildStep hSrc hOut exec artifacts now fs = .ok fs')
    (hmk : lookupAssoc fs.markers (p.markerPath hOut) = none)
    (heval : needsRebuildF hSrc hOut m fs' fuel p = some b) :
    fs'.markers = fs.markers ∧ b = true := by
  have hfs : fs' = fs := by
    unfold Package.buildStep at hbuild
    rw [hbin] at hbuild
    dsimp only at hbuild
    cases htp : p.sourceTarballPath hSrc with
    | error e =>
      rw [htp] at hbuild
      dsimp only at hbuild
      cases hbuild
    | ok path =>
      rw [htp] at hbuild
      dsimp only at hbuild
      cases hlk : lookupAssoc fs.tarballs path with
      | none =>
        rw [hlk] at hbuild
        dsimp only at hbuild
        cases hbuild
      | some c =>
        rw [hlk] at hbuild
        dsimp only at hbuild
        injection hbuild with h
        exact h.symm
  subst hfs
  refine ⟨rfl, ?_⟩
  cases fuel with
  | zero => cases heval
  | succ n =>
    simp only [needsRebuildF] at heval
    cases han : anyStaleAux (needsRebuildF hSrc hOut m fs' n) (depsOf m p) with
    | none =>
      rw [han] at heval
      cases heval
    | some db =>
      rw [han] at heval
      cases db with
      | true =>
        injection heval with h
        exact h.symm
      | false =>
        rw [hmk] at heval
        injection heval with h
        exact h.symm

/-- A binary-sourced package whose tarball is cached. -/
def c10BinPkg : Package :=
  { name := "bin", version := "2", author := none
    source := .binary "https://example.com/bin.pkg.tar.zst" defaultHash
    docker := DockerSettings.default, build_deps := [] }

def c10Manifest : Manifest := ⟨"1", "", "", [c10BinPkg]⟩

def c10FS : StaleFS :=
  { trees := [], markers := [], tarballs := [("build/sources/0.tar.gz", 42)] }

/-- C10 witness: a concrete binary package with its tarball cached builds
successfully, leaves no marker, and evaluates stale again. -/
theorem binary_build_writes_no_marker_witness :
    c10FS.markers = c10FS.markers ∧ true = true :=
  binary_build_writes_no_marker hZeroSrc hZeroOut (fun _ => true) (fun _ => [])
    1000 c10Manifest c10FS c10FS c10BinPkg "https://example.com/bin.pkg.tar.zst"
    defaultHash 1 true rfl (by rfl) rfl (by decide)

theorem runBuildSeq_names_and_counts (outcome : Package → Bool) :
    ∀ l : List Package,
      (runBuildSeq outcome l).1 = l.map Package.name ∧
      (runBuildSeq outcome l).2.1 + (runBuildSeq outcome l).2.2 = l.length := by
  intro l
  induction l with
  | nil => exact ⟨rfl, rfl⟩
  | cons p rest ih =>
    have h2 := ih.2
    simp only [runBuildSeq, List.map_cons, List.length_cons]
    refine ⟨by rw [ih.1], ?_⟩
    cases houtc : outcome p <;> simp <;> omega

/-- Dependency-free local packages used by the build-order scenarios. -/
def c4A : Package :=
  ⟨"a", "1", none, .pkgBuildLocal "pkgs/a" none, DockerSettings.default, []⟩

def c4B : Package :=
  ⟨"b", "1", none, .pkgBuildLocal "pkgs/b" none, DockerSettings.default, ["a"]⟩

/-- Manifest listing `b` (which depends on `a`) before `a`. -/
def c4MBA : Manifest := ⟨"1", "", "", [c4B, c4A]⟩

/-- Manifest listing `a` before `b` (which depends on `a`). -/
def c4MAB : Manifest := ⟨"1", "", "", [c4A, c4B]⟩

def c4FS : StaleFS := ⟨[], [], []⟩

/-- C4 counterexample: the build stage attempts packages in manifest order,
not dependency order — here `b` is attempted before its own `build_deps`
entry `a` — and when a dependency fails the dependent is still attempted:
with `a` failing, both packages are attempted and tallied into the only two
buckets (`built`, `errors`); nothing is reported as skipped. -/
theorem build_attempts_not_dep_ordered :
    buildStage hZeroSrc hZeroOut c4MBA c4FS 2 (fun _ => true) =
      some (["b", "a"], ⟨2, 2, 0⟩) ∧
    c4B.build_deps = ["a"] ∧
    buildStage hZeroSrc hZeroOut c4MAB c4FS 2 (fun p => p.name != "a") =
      some (["a", "b"], ⟨2, 1, 1⟩) := by
  refine ⟨by decide, rfl, by decide⟩

/-- C4 (amended): the build stage attempts exactly the packages selected as
stale, in manifest order (a subsequence of the manifest's package order, with
no dependency reordering); every selected package is attempted — a
dependency's failure skips nothing — and the aggregate result carries only
total, built and error counts, with built + errors equal to the number
attempted. -/
theorem build_manifest_order_no_skip (hSrc : Source → Nat)
    (hOut : Source → DockerSettings → Nat) (m : Manifest) (fs : StaleFS)
    (fuel : Nat) (outcome : Package → Bool) (selected : List Package)
    (hsel : buildSelection hSrc hOut m fs fuel = some selected) :
    ∃ names result, buildStage hSrc hOut m fs fuel outcome = some (names, result) ∧
      names = selected.map Package.name ∧
      names.Sublist (m.packages.map Package.name) ∧
      result.builtPackages + result.errors = selected.length ∧
      result.totalPackages = m.packages.length := by
  have hsub : selected.Sublist m.packages := by
    unfold buildSelection at hsel
    by_cases hall : m.packages.all
        (fun p => (needsRebuildF hSrc hOut m fs fuel p).isSome) = true
    · rw [if_pos hall] at hsel
      injection hsel with h
      rw [← h]
      exact List.filter_sublist m.packages
    · rw [if_neg hall] at hsel
      cases hsel
  have hrun := runBuildSeq_names_and_counts outcome selected
  refine ⟨selected.map Package.name,
    { totalPackages := m.packages.length
      builtPackages := (runBuildSeq outcome selected).2.1
      errors := (runBuildSeq outcome selected).2.2 }, ?_, rfl, ?_, ?_, rfl⟩
  · unfold buildStage
    rw [hsel]
    rw [← hrun.1]
  · exact hsub.map Package.name
  · exact hrun.2

/-- C4 witness: the amended statement realised on the two-package manifest
with both packages stale. -/
theorem build_manifest_order_no_skip_witness :
    ∃ names result,
      buildStage hZeroSrc hZeroOut c4MBA c4FS 2 (fun _ => true) =
        some (names, result) ∧
      names = [c4B, c4A].map Package.name ∧
      names.Sublist (c4MBA.packages.map Package.name) ∧
      result.builtPackages + result.errors = [c4B, c4A].length ∧
      result.totalPackages = c4MBA.packages.length :=
  build_manifest_order_no_skip hZeroSrc hZeroOut c4MBA c4FS 2 (fun _ => true)
    [c4B, c4A] (by decide)

/-- A binary-sourced package with a wrong upstream file: the served content
hashes to `B…B` while the manifest declares `A…A`. -/
def c3Pkg : Package :=
  ⟨"p", "1", none, .binary "https://x/p" defaultHash, DockerSettings.default, []⟩

def c3Net : String → Option Nat := fun u => if u = "https://x/p" then some 7 else none

def c3Sha : Nat → Sha256Hash := fun _ => ⟨⟨List.replicate 64 'B'⟩⟩

/-- C3 counterexample: a download whose digest verification fails is still
visible at the canonical cache path — `fetch_sources` creates the file at the
canonical path and verifies afterwards, so the mismatching bytes remain. -/
theorem fetch_unverified_content_visible :
    (c3Pkg.fetchSources hZeroSrc c3Sha c3Net []).1 =
      .error (.hashMismatch defaultHash ⟨⟨List.replicate 64 'B'⟩⟩) ∧
    lookupAssoc (c3Pkg.fetchSources hZeroSrc c3Sha c3Net []).2.1
      "build/sources/0.tar.gz" = some 7 := by
  exact ⟨by decide, by decide⟩

theorem lookupAssoc_insertAssoc_self (fs : FetchFS) (k : String) (v : Nat) :
    lookupAssoc (insertAssoc fs k v) k = some v := by
  simp [lookupAssoc, insertAssoc]

/-- C3 (amended): when a download is needed, `fetch_sources` writes the
downloaded bytes directly to the canonical cache path and only then verifies:
on a digest mismatch the unverified content is visible at the canonical path
and the call reports the mismatch; only a network failure leaves the cache
unchanged. -/
theorem fetch_writes_then_verifies (hSrc : Source → Nat)
    (sha : Nat → Sha256Hash) (net : String → Option Nat) (fs : FetchFS)
    (p : Package) (url : String) (sha256 : Sha256Hash) (path : String)
    (hty : p.sourceType = .ok (.tarball url sha256))
    (hpath : p.sourceTarballPath hSrc = .ok path)
    (hneed : isErrE (p.assertTarballMatchesHash hSrc sha fs) = true) :
    (net url = none → p.fetchSources hSrc sha net fs = (.error .fetchError, fs, 1)) ∧
    (∀ content, net url = some content →
      (p.fetchSources hSrc sha net fs).2.1 = insertAssoc fs path content ∧
      lookupAssoc (p.fetchSources hSrc sha net fs).2.1 path = some content ∧
      ((sha content).eqb sha256 = false →
        (p.fetchSources hSrc sha net fs).1 =
          .error (.hashMismatch sha256 (sha content)))) := by
  have hmain : ∀ r, p.fetchSources hSrc sha net fs = r →
      (net url = none → r = (.error .fetchError, fs, 1)) ∧
      (∀ content, net url = some content →
        r.2.1 = insertAssoc fs path content ∧
        ((sha content).eqb sha256 = false →
          r.1 = .error (.hashMismatch sha256 (sha content)))) := by
    intro r hr
    unfold Package.fetchSources at hr
    rw [hty, hpath] at hr
    dsimp only at hr
    rw [if_pos hneed] at hr
    constructor
    · intro hnet
      rw [hnet] at hr
      exact hr.symm
    · intro content hnet
      rw [hnet] at hr
      dsimp only at hr
      cases hassert : p.assertTarballMatchesHash hSrc sha (insertAssoc fs path content) with
      | error e =>
        rw [hassert] at hr
        refine ⟨by rw [← hr], ?_⟩
        intro hmis
        rw [← hr]
        have he : e = .hashMismatch sha256 (sha content) := by
          unfold Package.assertTarballMatchesHash
            Source.assertTarballMatchesHash at hassert
          rw [show p.source.tarballPath hSrc = .ok path from hpath,
              show p.source.sourceType = .ok (.tarball url sha256) from hty] at hassert
          dsimp only at hassert
          rw [lookupAssoc_insertAssoc_self] at hassert
          dsimp only at hassert
          rw [if_pos hmis] at hassert
          injection hassert with h
          exact h.symm
        rw [he]
      | ok u =>
        rw [hassert] at hr
        refine ⟨by rw [← hr], ?_⟩
        intro hmis
        exfalso
        unfold Package.assertTarballMatchesHash
          Source.assertTarballMatchesHash at hassert
        rw [show p.source.tarballPath hSrc = .ok path from hpath,
            show p.source.sourceType = .ok (.tarball url sha256) from hty] at hassert
        dsimp only at hassert
        rw [lookupAssoc_insertAssoc_self] at hassert
        dsimp only at hassert
        rw [if_pos hmis] at hassert
        cases hassert
  have h := hmain (p.fetchSources hSrc sha net fs) rfl
  refine ⟨h.1, ?_⟩
  intro content hnet
  have h2 := h.2 content hnet
  refine ⟨h2.1, ?_, h2.2⟩
  rw [h2.1]
  exact lookupAssoc_insertAssoc_self fs path content

/-- C3 witness: the amended statement realised on the mismatching binary
package. -/
theorem fetch_writes_then_verifies_witness :
    (c3Net "https://x/p" = none →
      c3Pkg.fetchSources hZeroSrc c3Sha c3Net [] = (.error .fetchError, [], 1)) ∧
    (∀ content, c3Net "https://x/p" = some content →
      (c3Pkg.fetchSources hZeroSrc c3Sha c3Net []).2.1 =
        insertAssoc [] "build/sources/0.tar.gz" content ∧
      lookupAssoc (c3Pkg.fetchSources hZeroSrc c3Sha c3Net []).2.1
        "build/sources/0.tar.gz" = some content ∧
      ((c3Sha content).eqb defaultHash = false →
        (c3Pkg.fetchSources hZeroSrc c3Sha c3Net []).1 =
          .error (.hashMismatch defaultHash (c3Sha content)))) :=
  fetch_writes_then_verifies hZeroSrc c3Sha c3Net [] c3Pkg "https://x/p"
    defaultHash "build/sources/0.tar.gz" (by decide) (by decide) (by decide)

theorem takeWhile_append_of_all {α : Type} {p : α → Bool} {a b : List α}
    (h : a.all p = true) : (a ++ b).takeWhile p = a ++ b.takeWhile p := by
  induction a with
  | nil => rfl
  | cons x xs ih =>
    simp only [List.all_cons, Bool.and_eq_true] at h
    simp [List.takeWhile_cons, h.1, ih h.2]

theorem all_map_comp {α β : Type} (f : α → β) (p : β → Bool) (l : List α) :
    (l.map f).all p = l.all (fun a => p (f a)) := by
  induction l with
  | nil => rfl
  | cons x xs ih => simp [ih]

/-- A local-sourced package (its tarball path is an error, so the manifest
references no source tarball at all). -/
def c2Pkg : Package :=
  ⟨"p", "1", none, .pkgBuildLocal "pkgs/p" none, DockerSettings.default, []⟩

def c2Manifest : Manifest := ⟨"1", "", "", [c2Pkg]⟩

/-- A cache holding one orphaned source tarball and one referenced output
folder. -/
def c2State : GCState :=
  { sourcesDirExists := true
    sources := [⟨"orphan.tar.gz", false, 100⟩]
    preparedDirExists := false
    prepared := []
    out := [⟨"p-1-0", true, 50⟩] }

/-- C2 counterexample: the collector does not compute all three reference
sets before performing any deletion — the build-output reference set is
computed only after the source and prepared sweeps, so with one orphaned
source tarball a deletion event precedes the output reference-set
computation in the trace. -/
theorem gc_out_refs_computed_after_deletes :
    refsComputedBeforeAllDeletes
      (garbageCollectSources hZeroSrc hZeroOut c2Manifest c2State).2.2 = false := by
  decide

/-- C2 (amended): each reference set is computed from the manifest alone and
before any deletion **in its own category** (the source and prepared sets
before any deletion at all, the output set before any output deletion); an
entry whose key is in the corresponding reference set always survives the
sweep; and a second collector run against an unchanged manifest performs zero
deletions in all three categories. -/
theorem gc_safety_order_idempotent (hSrc : Source → Nat)
    (hOut : Source → DockerSettings → Nat) (m : Manifest) (st : GCState) :
    perCategoryOrderOk (garbageCollectSources hSrc hOut m st).2.2 = true ∧
    (∀ e ∈ st.sources, (sourcesPath ++ "/" ++ e.name) ∈ sourceRefs hSrc m →
      e ∈ (garbageCollectSources hSrc hOut m st).1.sources) ∧
    (∀ e ∈ st.prepared, (preparedSourcesDir ++ "/" ++ e.name) ∈ preparedRefs m →
      e ∈ (garbageCollectSources hSrc hOut m st).1.prepared) ∧
    (∀ e ∈ st.out, e.name ∈ outRefs hOut m →
      e ∈ (garbageCollectSources hSrc hOut m st).1.out) ∧
    ((garbageCollectSources hSrc hOut m
        (garbageCollectSources hSrc hOut m st).1).2.1.removedSourcesPackages = 0 ∧
     (garbageCollectSources hSrc hOut m
        (garbageCollectSources hSrc hOut m st).1).2.1.removedPreparedPackages = 0 ∧
     (garbageCollectSources hSrc hOut m
        (garbageCollectSources hSrc hOut m st).1).2.1.removedOutFolders = 0) := by
  by_cases hex : st.sourcesDirExists = true
  · have hbody : garbageCollectSources hSrc hOut m st =
        (⟨st.sourcesDirExists,
          st.sources.filter (keepSourceEntry hSrc m),
          st.preparedDirExists,
          (if st.preparedDirExists then st.prepared.filter (keepPreparedEntry m)
            else st.prepared),
          st.out.filter (keepOutEntry hOut m)⟩,
         ⟨((st.sources.filter (fun e => !keepSourceEntry hSrc m e)).map GcEntry.size).sum +
            (((if st.preparedDirExists then
                st.prepared.filter (fun e => !keepPreparedEntry m e)
              else []).map GcEntry.size)).sum +
            ((st.out.filter (fun e => !keepOutEntry hOut m e)).map GcEntry.size).sum,
          (st.out.filter (fun e => !keepOutEntry hOut m e)).length,
          (if st.preparedDirExists then
              st.prepared.filter (fun e => !keepPreparedEntry m e)
            else []).length,
          (st.sources.filter (fun e => !keepSourceEntry hSrc m e)).length⟩,
         [GCEvent.computeSourceRefs, GCEvent.computePreparedRefs] ++
           (st.sources.filter (fun e => !keepSourceEntry hSrc m e)).map
             (fun e => GCEvent.deleteSource e.name) ++
           (if st.preparedDirExists then
               st.prepared.filter (fun e => !keepPreparedEntry m e)
             else []).map (fun e => GCEvent.deletePrepared e.name) ++
           [GCEvent.computeOutRefs] ++
           (st.out.filter (fun e => !keepOutEntry hOut m e)).map
             (fun e => GCEvent.deleteOut e.name)) := by
      unfold garbageCollectSources
      rw [if_neg (by rw [hex]; intro hc; cases hc)]
    refine ⟨?_, ?_, ?_, ?_, ?_⟩
    · rw [hbody]
      unfold perCategoryOrderOk
      apply Bool.and_eq_true_iff.mpr
      constructor
      · rw [show ([GCEvent.computeSourceRefs, GCEvent.computePreparedRefs] ++
            (st.sources.filter (fun e => !keepSourceEntry hSrc m e)).map
              (fun e => GCEvent.deleteSource e.name) ++
            (if st.preparedDirExists then
                st.prepared.filter (fun e => !keepPreparedEntry m e)
              else []).map (fun e => GCEvent.deletePrepared e.name) ++
            [GCEvent.computeOutRefs] ++
            (st.out.filter (fun e => !keepOutEntry hOut m e)).map
              (fun e => GCEvent.deleteOut e.name)) =
          ([GCEvent.computeSourceRefs, GCEvent.computePreparedRefs] ++
            ((st.sources.filter (fun e => !keepSourceEntry hSrc m e)).map
              (fun e => GCEvent.deleteSource e.name) ++
             ((if st.preparedDirExists then
                st.prepared.filter (fun e => !keepPreparedEntry m e)
              else []).map (fun e => GCEvent.deletePrepared e.name) ++
              ([GCEvent.computeOutRefs] ++
               (st.out.filter (fun e => !keepOutEntry hOut m e)).map
                 (fun e => GCEvent.deleteOut e.name))))) from by
            simp [List.append_assoc]]
        rw [takeWhile_append_of_all (by decide)]
        rw [takeWhile_append_of_all (by
          rw [all_map_comp]
          exact List.all_eq_true.mpr (fun e _ => rfl))]
        rw [takeWhile_append_of_all (by
          rw [all_map_comp]
          exact List.all_eq_true.mpr (fun e _ => rfl))]
        rw [show (([GCEvent.computeOutRefs] ++
            (st.out.filter (fun e => !keepOutEntry hOut m e)).map
              (fun e => GCEvent.deleteOut e.name)).takeWhile
                (fun e => e != GCEvent.computeOutRefs)) = [] from rfl]
        simp only [List.all_append, all_map_comp, Bool.and_eq_true]
        refine ⟨by decide, ?_, ?_, by rfl⟩
        · exact List.all_eq_true.mpr (fun e _ => rfl)
        · exact List.all_eq_true.mpr (fun e _ => rfl)
      · rfl
    · intro e he hc
      rw [hbody]
      apply List.mem_filter.mpr
      refine ⟨he, ?_⟩
      unfold keepSourceEntry
      apply Bool.or_eq_true_iff.mpr
      right
      exact List.elem_eq_true_of_mem hc
    · intro e he hc
      rw [hbody]
      dsimp only
      by_cases hprep : st.preparedDirExists = true
      · rw [if_pos hprep]
        apply List.mem_filter.mpr
        refine ⟨he, ?_⟩
        unfold keepPreparedEntry
        exact List.elem_eq_true_of_mem hc
      · rw [if_neg hprep]
        exact he
    · intro e he hc
      rw [hbody]
      apply List.mem_filter.mpr
      refine ⟨he, ?_⟩
      unfold keepOutEntry
      exact List.elem_eq_true_of_mem hc
    · rw [hbody]
      have hbody2 : ∀ st2 : GCState, st2.sourcesDirExists = true →
          (garbageCollectSources hSrc hOut m st2).2.1.removedSourcesPackages =
            (st2.sources.filter (fun e => !keepSourceEntry hSrc m e)).length ∧
          (garbageCollectSources hSrc hOut m st2).2.1.removedPreparedPackages =
            (if st2.preparedDirExists then
                st2.prepared.filter (fun e => !keepPreparedEntry m e)
              else []).length ∧
          (garbageCollectSources hSrc hOut m st2).2.1.removedOutFolders =
            (st2.out.filter (fun e => !keepOutEntry hOut m e)).length := by
        intro st2 hex2
        unfold garbageCollectSources
        rw [if_neg (by rw [hex2]; intro hc; cases hc)]
        exact ⟨rfl, rfl, rfl⟩
      have h2 := hbody2 ⟨st.sourcesDirExists,
          st.sources.filter (keepSourceEntry hSrc m),
          st.preparedDirExists,
          (if st.preparedDirExists then st.prepared.filter (keepPreparedEntry m)
            else st.prepared),
          st.out.filter (keepOutEntry hOut m)⟩ hex
      refine ⟨?_, ?_, ?_⟩
      · rw [h2.1]
        simp [List.filter_filter]
      · rw [h2.2.1]
        dsimp only
        by_cases hprep : st.preparedDirExists = true
        · rw [if_pos hprep, if_pos hprep]
          simp [List.filter_filter]
        · rw [if_neg hprep]
          rfl
      · rw [h2.2.2]
        simp [List.filter_filter]
  · have hbody : garbageCollectSources hSrc hOut m st = (st, ⟨0, 0, 0, 0⟩, []) := by
      unfold garbageCollectSources
      rw [if_pos (by revert hex; cases st.sourcesDirExists <;> simp)]
    refine ⟨by rw [hbody]; rfl, ?_, ?_, ?_, ?_⟩
    · intro e he hc
      rw [hbody]
      exact he
    · intro e he hc
      rw [hbody]
      exact he
    · intro e he hc
      rw [hbody]
      exact he
    · have hsame : (garbageCollectSources hSrc hOut m st).1 = st := by rw [hbody]
      rw [hsame, hbody]
      exact ⟨rfl, rfl, rfl⟩

/-- C2 witness: on a cache holding one orphaned tarball and one referenced
output folder, the referenced folder survives the sweep, the per-category
ordering holds, and a second run deletes nothing. -/
theorem gc_safety_order_idempotent_witness :
    (⟨"p-1-0", true, 50⟩ : GcEntry) ∈
      (garbageCollectSources hZeroSrc hZeroOut c2Manifest c2State).1.out ∧
    perCategoryOrderOk
      (garbageCollectSources hZeroSrc hZeroOut c2Manifest c2State).2.2 = true ∧
    (garbageCollectSources hZeroSrc hZeroOut c2Manifest
      (garbageCollectSources hZeroSrc hZeroOut c2Manifest c2State).1).2.1.removedSourcesPackages
        = 0 :=
  ⟨(gc_safety_order_idempotent hZeroSrc hZeroOut c2Manifest c2State).2.2.2.1
      ⟨"p-1-0", true, 50⟩ (by decide) (by decide),
   (gc_safety_order_idempotent hZeroSrc hZeroOut c2Manifest c2State).1,
   (gc_safety_order_idempotent hZeroSrc hZeroOut c2Manifest c2State).2.2.2.2.1⟩

/-! ### Fetch idempotence -/

theorem tarballPath_of_tarball (hSrc : Source → Nat) (s : Source) (url : String)
    (sha256 : Sha256Hash) (hty : s.sourceType = .ok (.tarball url sha256)) :
    s.tarballPath hSrc = .ok (sourcesPath ++ "/" ++ hexStr (hSrc s) ++ ".tar.gz") := by
  unfold Source.tarballPath
  rw [hty]

theorem find?_filter_ne (fs : FetchFS) (pp pq : String) (hne : pq ≠ pp) :
    List.find? (fun e => e.1 == pq) (fs.filter (fun e => e.1 != pp)) =
    List.find? (fun e => e.1 == pq) fs := by
  induction fs with
  | nil => rfl
  | cons e rest ih =>
    rw [List.filter_cons]
    by_cases he : e.1 = pp
    · rw [if_neg (by simp [he])]
      have hpa : ¬((fun x : String × Nat => x.1 == pq) e = true) := by
        simp only [he, beq_iff_eq]
        exact fun hc => hne hc.symm
      exact ih.trans
        (List.find?_cons_of_neg (p := fun x : String × Nat => x.1 == pq) rest hpa).symm
    · rw [if_pos (by simp [he])]
      by_cases heq : (e.1 == pq) = true
      · have hpa : (fun x : String × Nat => x.1 == pq) e = true := heq
        rw [List.find?_cons_of_pos (p := fun x : String × Nat => x.1 == pq)
            (List.filter (fun e => e.1 != pp) rest) hpa,
          List.find?_cons_of_pos (p := fun x : String × Nat => x.1 == pq) rest hpa]
      · have hpa : ¬((fun x : String × Nat => x.1 == pq) e = true) := heq
        rw [List.find?_cons_of_neg (p := fun x : String × Nat => x.1 == pq)
            (List.filter (fun e => e.1 != pp) rest) hpa,
          List.find?_cons_of_neg (p := fun x : String × Nat => x.1 == pq) rest hpa]
        exact ih

theorem lookupAssoc_insertAssoc_ne (fs : FetchFS) (pp pq : String) (c : Nat)
    (hne : pq ≠ pp) :
    lookupAssoc (insertAssoc fs pp c) pq = lookupAssoc fs pq := by
  unfold lookupAssoc insertAssoc
  have hhead : ¬((fun x : String × Nat => x.1 == pq) (pp, c) = true) := by
    simp only [beq_iff_eq]
    exact fun hc => hne hc.symm
  rw [List.find?_cons_of_neg (p := fun x : String × Nat => x.1 == pq)
    (List.filter (fun e => e.1 != pp) fs) hhead]
  rw [find?_filter_ne fs pp pq hne]

theorem assert_congr_source (hSrc : Source → Nat) (sha : Nat → Sha256Hash)
    (fs : FetchFS) (p q : Package) (h : q.source = p.source) :
    q.assertTarballMatchesHash hSrc sha fs = p.assertTarballMatchesHash hSrc sha fs := by
  unfold Package.assertTarballMatchesHash
  rw [h]

theorem assert_insertAssoc_ne (hSrc : Source → Nat) (sha : Nat → Sha256Hash)
    (fs : FetchFS) (s : Source) (pq pp : String) (c : Nat)
    (hq : s.tarballPath hSrc = .ok pq) (hne : pq ≠ pp) :
    s.assertTarballMatchesHash hSrc sha (insertAssoc fs pp c) =
      s.assertTarballMatchesHash hSrc sha fs := by
  unfold Source.assertTarballMatchesHash
  rw [hq]
  cases hty : s.sourceType with
  | error e => rfl
  | ok t =>
    cases t with
    | tarball url sha256 =>
      dsimp only
      rw [lookupAssoc_insertAssoc_ne fs pp pq c hne]
    | localFolder path => rfl

theorem assert_error_of_sourceType_error (hSrc : Source → Nat)
    (sha : Nat → Sha256Hash) (fs : FetchFS) (s : Source) (e : InvalidSourceError)
    (he : s.sourceType = .error e) :
    s.assertTarballMatchesHash hSrc sha fs = .error (.invalidSource e) := by
  unfold Source.assertTarballMatchesHash Source.tarballPath
  rw [he]

theorem fetchSources_sourceType_error (hSrc : Source → Nat)
    (sha : Nat → Sha256Hash) (net : String → Option Nat) (fs : FetchFS)
    (p : Package) (e : InvalidSourceError) (he : p.sourceType = .error e) :
    p.fetchSources hSrc sha net fs = (.error (.invalidSource e), fs, 0) := by
  unfold Package.fetchSources
  rw [he]

theorem fetchSources_ok_spec (hSrc : Source → Nat) (sha : Nat → Sha256Hash)
    (net : String → Option Nat) (fs : FetchFS) (p : Package) (url : String)
    (sha256 : Sha256Hash)
    (hty : p.sourceType = .ok (.tarball url sha256))
    (hok : (p.fetchSources hSrc sha net fs).1 = .ok ()) :
    p.assertTarballMatchesHash hSrc sha ((p.fetchSources hSrc sha net fs).2.1) = .ok () ∧
    ((p.fetchSources hSrc sha net fs).2.1 = fs ∨
      ∃ content, (p.fetchSources hSrc sha net fs).2.1 =
        insertAssoc fs (sourcesPath ++ "/" ++ hexStr (hSrc p.source) ++ ".tar.gz") content) := by
  have htp : p.sourceTarballPath hSrc =
      .ok (sourcesPath ++ "/" ++ hexStr (hSrc p.source) ++ ".tar.gz") :=
    tarballPath_of_tarball hSrc p.source url sha256 hty
  have hred : p.fetchSources hSrc sha net fs =
      (if isErrE (p.assertTarballMatchesHash hSrc sha fs) = true then
        match net url with
        | none => (.error .fetchError, fs, 1)
        | some content =>
          match p.assertTarballMatchesHash hSrc sha
              (insertAssoc fs (sourcesPath ++ "/" ++ hexStr (hSrc p.source) ++ ".tar.gz") content) with
          | .error e => (.error e,
              insertAssoc fs (sourcesPath ++ "/" ++ hexStr (hSrc p.source) ++ ".tar.gz") content, 1)
          | .ok _ => (.ok (),
              insertAssoc fs (sourcesPath ++ "/" ++ hexStr (hSrc p.source) ++ ".tar.gz") content, 1)
      else
        match p.assertTarballMatchesHash hSrc sha fs with
        | .error e => (.error e, fs, 0)
        | .ok _ => (.ok (), fs, 0)) := by
    unfold Package.fetchSources
    rw [hty, htp]
  rw [hred] at hok
  by_cases hneed : isErrE (p.assertTarballMatchesHash hSrc sha fs) = true
  · rw [if_pos hneed] at hok
    cases hnet : net url with
    | none =>
      rw [hnet] at hok
      cases hok
    | some content =>
      rw [hnet] at hok
      dsimp only at hok
      cases hass : p.assertTarballMatchesHash hSrc sha
          (insertAssoc fs (sourcesPath ++ "/" ++ hexStr (hSrc p.source) ++ ".tar.gz") content) with
      | error e =>
        rw [hass] at hok
        dsimp only at hok
        cases hok
      | ok u =>
        cases u
        have hfin : p.fetchSources hSrc sha net fs = (.ok (),
            insertAssoc fs (sourcesPath ++ "/" ++ hexStr (hSrc p.source) ++ ".tar.gz") content,
            1) := by
          rw [hred, if_pos hneed, hnet]
          dsimp only
          rw [hass]
        rw [hfin]
        exact ⟨hass, Or.inr ⟨content, rfl⟩⟩
  · rw [if_neg hneed] at hok
    cases hass : p.assertTarballMatchesHash hSrc sha fs with
    | error e =>
      rw [hass] at hok
      dsimp only at hok
      cases hok
    | ok u =>
      cases u
      have hfin : p.fetchSources hSrc sha net fs = (.ok (), fs, 0) := by
        rw [hred, if_neg hneed]
        rw [hass]
      rw [hfin]
      exact ⟨hass, Or.inl rfl⟩

/-- The design assumption behind the hash-keyed tarball cache: distinct
sources never collide on their derived tarball path (the code relies on the
64-bit `DefaultHasher` for this). -/
def tarballPathInjective (hSrc : Source → Nat) (P : List Package) : Prop :=
  ∀ p ∈ P, ∀ q ∈ P, ∀ pp pq, p.sourceTarballPath hSrc = .ok pp →
    q.sourceTarballPath hSrc = .ok pq → pp = pq → p.source = q.source

theorem isErrE_false_ok {r : Except SourceFetchError Unit}
    (h : isErrE r = false) : r = .ok () := by
  cases r with
  | ok u => cases u; rfl
  | error e => cases h

theorem runFetchSeq_result_mem (hSrc : Source → Nat) (sha : Nat → Sha256Hash)
    (net : String → Option Nat) :
    ∀ (l : List Package) (fs : FetchFS) (p : Package), p ∈ l →
      ∃ fsmid, (p.name, (p.fetchSources hSrc sha net fsmid).1) ∈
        (runFetchSeq hSrc sha net fs l).1 := by
  intro l
  induction l with
  | nil =>
    intro fs p hp
    cases hp
  | cons x rest ih =>
    intro fs p hp
    rcases List.mem_cons.mp hp with hpx | hpr
    · subst hpx
      exact ⟨fs, List.mem_cons_self _ _⟩
    · obtain ⟨fsmid, hm⟩ :=
        ih ((x.fetchSources hSrc sha net fs).2.1) p hpr
      exact ⟨fsmid, List.mem_cons_of_mem _ hm⟩

theorem runFetchSeq_preserves (hSrc : Source → Nat) (sha : Nat → Sha256Hash)
    (net : String → Option Nat) (P : List Package)
    (hinj : tarballPathInjective hSrc P) (q : Package) (hqP : q ∈ P)
    (qurl : String) (qsha : Sha256Hash)
    (hqt : q.sourceType = .ok (.tarball qurl qsha)) :
    ∀ (l : List Package) (fs : FetchFS),
      (∀ p ∈ l, p ∈ P) →
      (∀ p ∈ l, ∃ url sha256, p.sourceType = .ok (.tarball url sha256)) →
      (∀ r ∈ (runFetchSeq hSrc sha net fs l).1, isErrE r.2 = false) →
      (q.assertTarballMatchesHash hSrc sha fs = .ok () ∨ ∃ p ∈ l, p.source = q.source) →
      q.assertTarballMatchesHash hSrc sha (runFetchSeq hSrc sha net fs l).2.1 = .ok () := by
  intro l
  induction l with
  | nil =>
    intro fs _ _ _ hbase
    rcases hbase with h | ⟨p, hp, _⟩
    · exact h
    · cases hp
  | cons p rest ih =>
    intro fs hlP hlt hallok hbase
    have hstep_ok : (p.fetchSources hSrc sha net fs).1 = .ok () := by
      apply isErrE_false_ok
      exact hallok (p.name, (p.fetchSources hSrc sha net fs).1)
        (List.mem_cons_self _ _)
    obtain ⟨purl, psha, hpt⟩ := hlt p (List.mem_cons_self _ _)
    have spec := fetchSources_ok_spec hSrc sha net fs p purl psha hpt hstep_ok
    have hqpath : q.sourceTarballPath hSrc =
        .ok (sourcesPath ++ "/" ++ hexStr (hSrc q.source) ++ ".tar.gz") :=
      tarballPath_of_tarball hSrc q.source qurl qsha hqt
    have hppath : p.sourceTarballPath hSrc =
        .ok (sourcesPath ++ "/" ++ hexStr (hSrc p.source) ++ ".tar.gz") :=
      tarballPath_of_tarball hSrc p.source purl psha hpt
    have hnewbase : q.assertTarballMatchesHash hSrc sha
        ((p.fetchSources hSrc sha net fs).2.1) = .ok () ∨
        ∃ p' ∈ rest, p'.source = q.source := by
      rcases hbase with hq0 | ⟨p', hp', hsrc'⟩
      · rcases spec.2 with heqfs | ⟨content, hins⟩
        · left
          rw [heqfs]
          exact hq0
        · by_cases hpq : (sourcesPath ++ "/" ++ hexStr (hSrc q.source) ++ ".tar.gz") =
              (sourcesPath ++ "/" ++ hexStr (hSrc p.source) ++ ".tar.gz")
          · left
            have hsrceq : p.source = q.source :=
              hinj p (hlP p (List.mem_cons_self _ _)) q hqP _ _ hppath hqpath hpq.symm
            rw [assert_congr_source hSrc sha _ p q hsrceq.symm]
            exact spec.1
          · left
            rw [hins]
            rw [show q.assertTarballMatchesHash hSrc sha
                (insertAssoc fs (sourcesPath ++ "/" ++ hexStr (hSrc p.source) ++ ".tar.gz") content) =
              q.assertTarballMatchesHash hSrc sha fs from
              assert_insertAssoc_ne hSrc sha fs q.source _ _ content hqpath hpq]
            exact hq0
      · rcases List.mem_cons.mp hp' with hpp | hpr
        · rw [hpp] at hsrc'
          left
          rw [assert_congr_source hSrc sha _ p q hsrc'.symm]
          exact spec.1
        · right
          exact ⟨p', hpr, hsrc'⟩
    have htail_ok : ∀ r ∈ (runFetchSeq hSrc sha net
        ((p.fetchSources hSrc sha net fs).2.1) rest).1, isErrE r.2 = false := by
      intro r hr
      exact hallok r (List.mem_cons_of_mem _ hr)
    exact ih ((p.fetchSources hSrc sha net fs).2.1)
      (fun p' hp' => hlP p' (List.mem_cons_of_mem _ hp'))
      (fun p' hp' => hlt p' (List.mem_cons_of_mem _ hp'))
      htail_ok hnewbase

/-- C8: fetch idempotence — after a fully successful fetch pass, a second
pass with the same manifest and no cache modification selects zero packages
and performs zero network requests (assuming the hash-keyed tarball paths of
distinct sources do not collide, the design assumption of the cache). -/
theorem fetch_idempotent (hSrc : Source → Nat) (sha : Nat → Sha256Hash)
    (net : String → Option Nat) (m : Manifest) (fs : FetchFS)
    (hinj : tarballPathInjective hSrc m.packages)
    (herr : (fetchStage hSrc sha net m fs).errors = 0) :
    (fetchStage hSrc sha net m ((fetchStage hSrc sha net m fs).fs)).selectedNames = [] ∧
    (fetchStage hSrc sha net m ((fetchStage hSrc sha net m fs).fs)).requests = 0 ∧
    (fetchStage hSrc sha net m ((fetchStage hSrc sha net m fs).fs)).downloadedPackages = 0 := by
  have hflen : ((runFetchSeq hSrc sha net fs (fetchSelection hSrc sha fs m)).1.filter
      (fun r => isErrE r.2)).length = 0 := herr
  have hallok : ∀ r ∈ (runFetchSeq hSrc sha net fs (fetchSelection hSrc sha fs m)).1,
      isErrE r.2 = false := by
    intro r hr
    have hnil := List.length_eq_zero.mp hflen
    by_cases hc : isErrE r.2 = true
    · exfalso
      have : r ∈ (runFetchSeq hSrc sha net fs (fetchSelection hSrc sha fs m)).1.filter
          (fun r => isErrE r.2) := List.mem_filter.mpr ⟨hr, hc⟩
      rw [hnil] at this
      cases this
    · simp only [Bool.not_eq_true] at hc
      exact hc
  have hselSub : ∀ p ∈ fetchSelection hSrc sha fs m, p ∈ m.packages := by
    intro p hp
    unfold fetchSelection at hp
    exact List.mem_of_mem_filter (List.mem_of_mem_filter hp)
  have htarb : ∀ p ∈ fetchSelection hSrc sha fs m,
      ∃ url sha256, p.sourceType = .ok (.tarball url sha256) := by
    intro p hp
    have hp1 : p ∈ m.packages.filter (fun p =>
        match p.sourceType with
        | .ok (.localFolder _) => false
        | _ => true) := List.mem_of_mem_filter hp
    have hpred1 := (List.mem_filter.mp hp1).2
    cases hty : p.sourceType with
    | ok t =>
      cases t with
      | tarball url sha256 => exact ⟨url, sha256, rfl⟩
      | localFolder path =>
        rw [hty] at hpred1
        cases hpred1
    | error e =>
      exfalso
      obtain ⟨fsmid, hm⟩ := runFetchSeq_result_mem hSrc sha net
        (fetchSelection hSrc sha fs m) fs p hp
      have hres := hallok _ hm
      rw [fetchSources_sourceType_error hSrc sha net fsmid p e hty] at hres
      cases hres
  have hassert1 : ∀ q ∈ m.packages, ∀ url sha256,
      q.sourceType = .ok (.tarball url sha256) →
      q.assertTarballMatchesHash hSrc sha
        ((runFetchSeq hSrc sha net fs (fetchSelection hSrc sha fs m)).2.1) = .ok () := by
    intro q hq url sha256 hqt
    apply runFetchSeq_preserves hSrc sha net m.packages hinj q hq url sha256 hqt
      (fetchSelection hSrc sha fs m) fs hselSub htarb hallok
    by_cases hqsel : q ∈ fetchSelection hSrc sha fs m
    · right
      exact ⟨q, hqsel, rfl⟩
    · left
      have hq1 : q ∈ m.packages.filter (fun p =>
          match p.sourceType with
          | .ok (.localFolder _) => false
          | _ => true) := by
        apply List.mem_filter.mpr
        refine ⟨hq, ?_⟩
        rw [hqt]
      have hq2 : ¬ (isErrE (q.assertTarballMatchesHash hSrc sha fs) = true) := by
        intro hc
        exact hqsel (List.mem_filter.mpr ⟨hq1, hc⟩)
      apply isErrE_false_ok
      cases hb : isErrE (q.assertTarballMatchesHash hSrc sha fs)
      · rfl
      · exact absurd hb hq2
  have hsel2 : fetchSelection hSrc sha
      ((runFetchSeq hSrc sha net fs (fetchSelection hSrc sha fs m)).2.1) m = [] := by
    show (m.packages.filter (fun p =>
        match p.sourceType with
        | .ok (.localFolder _) => false
        | _ => true)).filter
      (fun p => isErrE (p.assertTarballMatchesHash hSrc sha
        ((runFetchSeq hSrc sha net fs (fetchSelection hSrc sha fs m)).2.1))) = []
    apply List.filter_eq_nil_iff.mpr
    intro p hp1
    have hpmem : p ∈ m.packages := List.mem_of_mem_filter hp1
    have hpred1 := (List.mem_filter.mp hp1).2
    cases hty : p.sourceType with
    | ok t =>
      cases t with
      | tarball url sha256 =>
        intro hc
        rw [hassert1 p hpmem url sha256 hty] at hc
        exact absurd hc (by decide)
      | localFolder path =>
        rw [hty] at hpred1
        cases hpred1
    | error e =>
      exfalso
      have hpsel : p ∈ fetchSelection hSrc sha fs m := by
        apply List.mem_filter.mpr
        refine ⟨?_, ?_⟩
        · apply List.mem_filter.mpr
          refine ⟨hpmem, ?_⟩
          rw [hty]
        · rw [show p.assertTarballMatchesHash hSrc sha fs =
            .error (.invalidSource e) from
            assert_error_of_sourceType_error hSrc sha fs p.source e hty]
          rfl
      obtain ⟨url, sha256, hty2⟩ := htarb p hpsel
      rw [hty] at hty2
      cases hty2
  refine ⟨?_, ?_, ?_⟩
  · show (fetchSelection hSrc sha
        ((runFetchSeq hSrc sha net fs (fetchSelection hSrc sha fs m)).2.1) m).map
        Package.name = []
    rw [hsel2]
    rfl
  · show (runFetchSeq hSrc sha net _
        (fetchSelection hSrc sha
          ((runFetchSeq hSrc sha net fs (fetchSelection hSrc sha fs m)).2.1) m)).2.2 = 0
    rw [hsel2]
    rfl
  · show ((runFetchSeq hSrc sha net _
        (fetchSelection hSrc sha
          ((runFetchSeq hSrc sha net fs (fetchSelection hSrc sha fs m)).2.1) m)).1.filter
        (fun r => isOkE r.2)).length = 0
    rw [hsel2]
    rfl

/-- A binary-sourced package whose upstream content matches its declared
digest. -/
def c8Pkg : Package :=
  ⟨"ok", "1", none, .binary "https://x/ok" defaultHash, DockerSettings.default, []⟩

def c8Manifest : Manifest := ⟨"1", "", "", [c8Pkg]⟩

def c8Net : String → Option Nat := fun u => if u = "https://x/ok" then some 5 else none

def c8Sha : Nat → Sha256Hash := fun _ => defaultHash

/-- C8 witness: one binary package, an empty cache, and a network serving
matching content — the first pass succeeds and the second pass selects
nothing and makes no requests. -/
theorem fetch_idempotent_witness :
    (fetchStage hZeroSrc c8Sha c8Net c8Manifest
      ((fetchStage hZeroSrc c8Sha c8Net c8Manifest []).fs)).selectedNames = [] ∧
    (fetchStage hZeroSrc c8Sha c8Net c8Manifest
      ((fetchStage hZeroSrc c8Sha c8Net c8Manifest []).fs)).requests = 0 ∧
    (fetchStage hZeroSrc c8Sha c8Net c8Manifest
      ((fetchStage hZeroSrc c8Sha c8Net c8Manifest []).fs)).downloadedPackages = 0 :=
  fetch_idempotent hZeroSrc c8Sha c8Net c8Manifest []
    (by
      intro p hp q hq pp pq hpp hqq hpq
      have hp' : p = c8Pkg := by
        cases hp with
        | head => rfl
        | tail _ h => cases h
      have hq' : q = c8Pkg := by
        cases hq with
        | head => rfl
        | tail _ h => cases h
      rw [hp', hq'])
    (by decide)

end Hyprpacker
